import Mathlib

/-!
Shallow embedding of src/datastore.py (VoodooPad document-store reader/writer).

Modeling conventions:
* Python `bytes` are `List Nat` (each element a value 0..255 in practice).
* Python file streams are read sequentially; a stream positioned at the start of a
  byte list `s` models `data.read(n)` as `(s.take n, s.drop n)` — like Python's
  `read`, a short stream yields only the available bytes, with no error.
* External libraries are abstracted at their call boundary: `plistlib` results are
  modeled as already-parsed records (`Option` = parse success/failure),
  `hashlib.sha1(...).hexdigest()` is an uninterpreted parameter `hexd`,
  and the filesystem is an explicit structure (`StoreFS`).
* UTF-8 encode/decode (`str.encode('utf-8')` / `bytes.decode('utf-8')`) are
  implemented concretely below so everything evaluates.
-/

/-- Bytes of a Python string literal under UTF-8; models `s.encode('utf-8')` for
the unicode scalar value `c` of one character. -/
def utf8EncodeChar (c : Nat) : List Nat :=
  if c < 128 then [c]
  else if c < 2048 then [192 + c / 64, 128 + c % 64]
  else if c < 65536 then [224 + c / 4096, 128 + c / 64 % 64, 128 + c % 64]
  else [240 + c / 262144, 128 + c / 4096 % 64, 128 + c / 64 % 64, 128 + c % 64]

/-- Models Python `s.encode('utf-8')` as a byte list. -/
def utf8Encode (s : String) : List Nat :=
  (s.data.map (fun ch => utf8EncodeChar ch.toNat)).flatten

/-- Strict UTF-8 decoder on byte lists; models Python `bs.decode('utf-8')`,
with `none` for the `UnicodeDecodeError` raise. -/
def utf8DecodeChars : List Nat → Option (List Char)
  | [] => some []
  | b :: rest =>
    if b < 128 then (utf8DecodeChars rest).map (fun cs => Char.ofNat b :: cs)
    else if 194 ≤ b ∧ b ≤ 223 then
      match rest with
      | b1 :: rest1 =>
        if 128 ≤ b1 ∧ b1 ≤ 191 then
          (utf8DecodeChars rest1).map (fun cs => Char.ofNat ((b - 192) * 64 + (b1 - 128)) :: cs)
        else none
      | [] => none
    else if 224 ≤ b ∧ b ≤ 239 then
      match rest with
      | b1 :: b2 :: rest2 =>
        if 128 ≤ b1 ∧ b1 ≤ 191 ∧ 128 ≤ b2 ∧ b2 ≤ 191 ∧
            2048 ≤ (b - 224) * 4096 + (b1 - 128) * 64 + (b2 - 128) ∧
            ((b - 224) * 4096 + (b1 - 128) * 64 + (b2 - 128) < 55296 ∨
              57343 < (b - 224) * 4096 + (b1 - 128) * 64 + (b2 - 128)) then
          (utf8DecodeChars rest2).map
            (fun cs => Char.ofNat ((b - 224) * 4096 + (b1 - 128) * 64 + (b2 - 128)) :: cs)
        else none
      | _ => none
    else if 240 ≤ b ∧ b ≤ 244 then
      match rest with
      | b1 :: b2 :: b3 :: rest3 =>
        if 128 ≤ b1 ∧ b1 ≤ 191 ∧ 128 ≤ b2 ∧ b2 ≤ 191 ∧ 128 ≤ b3 ∧ b3 ≤ 191 ∧
            65536 ≤ (b - 240) * 262144 + (b1 - 128) * 4096 + (b2 - 128) * 64 + (b3 - 128) ∧
            (b - 240) * 262144 + (b1 - 128) * 4096 + (b2 - 128) * 64 + (b3 - 128) ≤ 1114111 then
          (utf8DecodeChars rest3).map
            (fun cs =>
              Char.ofNat ((b - 240) * 262144 + (b1 - 128) * 4096 + (b2 - 128) * 64 + (b3 - 128)) :: cs)
        else none
      | _ => none
    else none

/-- Models Python `bs.decode('utf-8')`: `none` stands for `UnicodeDecodeError`. -/
def utf8Decode (bs : List Nat) : Option String :=
  (utf8DecodeChars bs).map String.mk

/-- Byte list of a Lean string (helper for byte-string literals such as
`b'rtfd'` and the directory entry name `'TXT.rtf'`). -/
def strBytes (s : String) : List Nat := utf8Encode s

/-- Models Python `s[0]` (as a 1-character string) for the nonempty identifier
strings the code indexes; `uuid[0]` in `item_path`, `item_plist_path` and
`add_item` (src lines 204, 207, 242-243). -/
def pyFirst (s : String) : String := String.mk (s.data.take 1)

/-- Python `dict` assignment `m[k] = v`: overwrite in place if the key is
present (keys keep their first-insertion position), else append. -/
def pyDictSet {α β : Type} [DecidableEq α] (m : List (α × β)) (k : α) (v : β) :
    List (α × β) :=
  if m.any (fun p => decide (p.1 = k)) then
    m.map (fun p => if p.1 = k then (k, v) else p)
  else m ++ [(k, v)]

/-- Python `dict` lookup `m[k]` / `k in m`: the value stored at the key. -/
def pyDictGet {α β : Type} [DecidableEq α] (m : List (α × β)) (k : α) : Option β :=
  (m.find? (fun p => decide (p.1 = k))).map (fun p => p.2)

/-- src lines 343-344: `int.from_bytes(four_bytes, byteorder='little')`.
Like the source, accepts fewer than 4 bytes (a short read): the value is the
little-endian number of whatever bytes are present, 0 for `b''`. -/
def read_int (bs : List Nat) : Nat :=
  bs.foldr (fun b acc => b + 256 * acc) 0

/-- Little-endian 4-byte encoding of `n < 2^32` (synthetic-input constructor
for the decoder's 4-byte fields; not part of the source, which only reads). -/
def le4 (n : Nat) : List Nat :=
  [n % 256, n / 256 % 256, n / 65536 % 256, n / 16777216 % 256]

/-- The `UnicodeDecodeError` that `attr_name = data.read(attr_len).decode('utf-8')`
(src line 332) raises on an invalid-UTF-8 entry name. It is not caught
anywhere in the decoder, so it propagates out of `read_rtf_item`, out of
`extract_rtf_content_from_rtfd` and `load_file`, and aborts `open`. -/
inductive RtfDecodeError : Type where
  | unicodeDecodeError : RtfDecodeError
deriving DecidableEq

/-- The recursive value built by `read_rtf_item` (src lines 314-340): a leaf is
returned as `bytes`, a directory record as a `dict` from the UTF-8-decoded
entry name to the recursively decoded entry (whose decode may itself be
Python `None`, hence `Option`). -/
inductive RtfItem : Type where
  | leaf (bs : List Nat) : RtfItem
  | dir (m : List (String × Option RtfItem)) : RtfItem

/-- src lines 330-334: the first `tag == 3` loop; reads `n` length-prefixed
names, each with `attr_len = read_int(data.read(4))` followed by
`attr_name = data.read(attr_len).decode('utf-8')`, returning the decoded
names and the rest of the stream. `none` models the `UnicodeDecodeError`
raised at the first invalid-UTF-8 name, which aborts the whole decode (the
interleaved `directory_map[attr_name] = None` assignments are performed after
all names are read; the difference is unobservable since a raise discards the
map anyway). -/
def readNames : Nat → List Nat → Option (List String × List Nat)
  | 0, s => some ([], s)
  | n + 1, s =>
    let attr_len := read_int (s.take 4)
    let s1 := s.drop 4
    match utf8Decode (s1.take attr_len) with
    | none => none
    | some attr_name =>
      match readNames n (s1.drop attr_len) with
      | none => none
      | some r => some (attr_name :: r.1, r.2)

/-- src line 335: `item_sizes = [read_int(data.read(4)) for _ in range(n_items)]`. -/
def readSizes : Nat → List Nat → List Nat × List Nat
  | 0, s => ([], s)
  | n + 1, s =>
    let sz := read_int (s.take 4)
    let r := readSizes n (s.drop 4)
    (sz :: r.1, r.2)

/-- src line 336: `item_data = [data.read(size) for size in item_sizes]`. -/
def readChunks : List Nat → List Nat → List (List Nat)
  | [], _ => []
  | sz :: szs, s => s.take sz :: readChunks szs (s.drop sz)

/-- src lines 316-325, the `item_type == 1` branch of `read_rtf_item`, applied
to the stream after the 4 tag bytes: read `item_size`; the `0x80000000`
sentinel reads `padding_size` and `real_size`, skips the padding and returns
the next `real_size` bytes, otherwise return the next `item_size` bytes. -/
def rtfLeafBranch (s1 : List Nat) : Option RtfItem :=
  let item_size := read_int (s1.take 4)
  let s2 := s1.drop 4
  if item_size = 2147483648 then
    let padding_size := read_int (s2.take 4)
    let real_size := read_int ((s2.drop 4).take 4)
    let s3 := (s2.drop 4).drop 4
    some (RtfItem.leaf ((s3.drop padding_size).take real_size))
  else
    some (RtfItem.leaf (s2.take item_size))

/-- src lines 337-338: the second `tag == 3` loop,
`directory_map[item_names[i]] = read_rtf_item(BytesIO(item))`: fill the map
entry by entry in order with Python dict assignment; an error raised by a
recursive decode aborts the loop and propagates. -/
def rtfFillDir (recurse : List Nat → Except RtfDecodeError (Option RtfItem)) :
    List (String × List Nat) → List (String × Option RtfItem) →
    Except RtfDecodeError (List (String × Option RtfItem))
  | [], m => Except.ok m
  | e :: rest, m =>
    match recurse e.2 with
    | Except.error err => Except.error err
    | Except.ok v => rtfFillDir recurse rest (pyDictSet m e.1 v)

/-- src lines 326-339, the `item_type == 3` branch of `read_rtf_item`, applied
to the stream after the 4 tag bytes; `recurse` is the recursive call made on
`BytesIO(item)` for each entry's raw bytes. A `UnicodeDecodeError` from the
name loop (`readNames` = `none`) or from a recursive decode propagates. The
`directory_map` assignments are Python dict updates (`pyDictSet`). -/
def rtfDirBranch (recurse : List Nat → Except RtfDecodeError (Option RtfItem))
    (s1 : List Nat) : Except RtfDecodeError (Option RtfItem) :=
  let n_items := read_int (s1.take 4)
  let s2 := s1.drop 4
  match readNames n_items s2 with
  | none => Except.error RtfDecodeError.unicodeDecodeError
  | some nr =>
    let sr := readSizes n_items nr.2
    let item_data := readChunks sr.1 sr.2
    let dm0 := nr.1.foldl (fun m nm => pyDictSet m nm none) []
    match rtfFillDir recurse (nr.1.zip item_data) dm0 with
    | Except.error err => Except.error err
    | Except.ok m => Except.ok (some (RtfItem.dir m))

/-- Fuel-indexed form of `read_rtf_item` (src lines 314-340). The fuel only
bounds the recursion depth; `rtfGo_fuel_irrel` below shows any fuel larger
than the stream length gives the same result, so `read_rtf_item` (which passes
`s.length + 1`) is the function computed by the source's unbounded recursion. -/
def rtfGo : Nat → List Nat → Except RtfDecodeError (Option RtfItem)
  | 0, _ => Except.ok none
  | fuel + 1, s =>
    let item_type := read_int (s.take 4)
    if item_type = 1 then Except.ok (rtfLeafBranch (s.drop 4))
    else if item_type = 3 then rtfDirBranch (rtfGo fuel) (s.drop 4)
    else Except.ok none

/-- src lines 314-340: `read_rtf_item(data)` on a stream whose remaining bytes
are `s`. `Except.ok none` is the source returning Python `None` (the final
`return None` for an unrecognized tag); `Except.error` is the uncaught
`UnicodeDecodeError` raised while decoding an entry name at src line 332. -/
def read_rtf_item (s : List Nat) : Except RtfDecodeError (Option RtfItem) :=
  rtfGo (s.length + 1) s

/-- The 4-byte composite-document magic `b'rtfd'` (src lines 275, 350). -/
def rtfdMagic : String := "rtfd"

/-- The reserved rich-text sub-stream name `'TXT.rtf'` (src line 356). -/
def txtRtfName : String := "TXT.rtf"

/-- src lines 347-360: `extract_rtf_content_from_rtfd` on a file whose bytes
are `bs`. `Except.ok none` models every path on which the function returns
Python `None` (wrong magic; top-level result not a dict; no `'TXT.rtf'` key),
and a `'TXT.rtf'` hit returns the stored value — itself possibly Python
`None`, which is indistinguishable to the caller from the other `None`
returns, hence the flattening. A `UnicodeDecodeError` raised inside
`read_rtf_item` is not caught here and propagates. -/
def extract_rtf_content_from_rtfd (bs : List Nat) :
    Except RtfDecodeError (Option RtfItem) :=
  if bs.take 4 ≠ strBytes rtfdMagic then Except.ok none
  else
    match read_rtf_item ((bs.drop 4).drop 4) with
    | Except.error err => Except.error err
    | Except.ok (some (RtfItem.dir m)) =>
      match pyDictGet m txtRtfName with
      | some v => Except.ok v
      | none => Except.ok none
    | Except.ok _ => Except.ok none

/-- The dynamic type of the Python value produced by `load_file`
(src lines 269-278): raw `bytes`, or — via `extract_rtf_content_from_rtfd` —
`bytes`, a `dict`, or `None`. `open` then calls `.decode('utf-8')` on it. -/
inductive PyContent : Type where
  | bytes (bs : List Nat) : PyContent
  | pynone : PyContent
  | dict (m : List (String × Option RtfItem)) : PyContent

/-- The Python value `extract_rtf_content_from_rtfd` hands back to `load_file`. -/
def contentOfExtract : Option RtfItem → PyContent
  | some (RtfItem.leaf bs) => PyContent.bytes bs
  | some (RtfItem.dir m) => PyContent.dict m
  | none => PyContent.pynone

/-- src lines 269-278: `load_file` (unencrypted branch) on a file whose bytes
are `bs`: if `len(file_content) > 4 and file_content[0:4] == b'rtfd'`, the
bytes are routed through the RTFD extraction (whose uncaught
`UnicodeDecodeError` propagates through `load_file`), else returned
verbatim. -/
def load_file (bs : List Nat) : Except RtfDecodeError PyContent :=
  if 4 < bs.length ∧ bs.take 4 = strBytes rtfdMagic then
    Except.map contentOfExtract (extract_rtf_content_from_rtfd bs)
  else Except.ok (PyContent.bytes bs)

/-- Path component `'pages'`. -/
def pagesName : String := "pages"

/-- Metadata-record file suffix `'.plist'`. -/
def plistSuffix : String := ".plist"

/-- Store-identity file name `'storeinfo.plist'` (src lines 98, 116). -/
def storeinfoName : String := "storeinfo.plist"

/-- Store-wide configuration file name `'properties.plist'` (src lines 101, 121). -/
def propertiesName : String := "properties.plist"

/-- The page-alias type tag `'com.fm.page-alias'` (src line 167). -/
def pageAliasUTI : String := "com.fm.page-alias"

/-- The file-alias type tag `'com.fm.file-alias'` (src line 174). -/
def fileAliasUTI : String := "com.fm.file-alias"

/-- Fields of the parsed `storeinfo.plist` that `open` consumes
(src lines 126-137): `isEncrypted` and `VoodooPadBundleVersion`. -/
structure StoreInfo : Type where
  isEncrypted : Bool
  bundleVersion : Nat
deriving DecidableEq

/-- An item's metadata record (the dict built in `add_item`, src lines 234-240,
and the parse result of an item's `.plist` file). -/
structure ItemPlist : Type where
  uuid : String
  key : String
  displayName : String
  uti : String
  dataHash : String
deriving DecidableEq, Inhabited

/-- One shard subdirectory of `pages`, as seen by `get_plists`
(src lines 290-304): its name and, for each contained `*.plist` file, the
file-name stem and the result of `plistlib.load` on it (`none` models the
`xml.parsers.expat.ExpatError` raise caught at src line 157). -/
structure Shard : Type where
  name : String
  plistEntries : List (String × Option ItemPlist)
deriving DecidableEq

/-- The on-disk state `DataStore.open` consumes. `storeinfoFile` is the
existence and parse of `storeinfo.plist` (src lines 116-126); `propertiesFileExists`
is the existence check of `properties.plist` (src lines 121-124; its parsed
content is not consulted by any claim and is not modeled); `pagesDir` is
`none` when `pages` is not a directory (src lines 141-144); `fileBytes` maps a
content file's full path to its bytes. -/
structure StoreFS : Type where
  root : List String
  storeinfoFile : Option StoreInfo
  propertiesFileExists : Bool
  pagesDir : Option (List Shard)
  fileBytes : List (List String × List Nat)
deriving DecidableEq

/-- The exceptions `DataStore.open` can raise: `FileNotFoundError` carrying a
path (src lines 119, 124, 144, 181), `Exception('Encrypted ...')` (line 129),
`Exception('Unsupported')` (line 137), `AttributeError` from calling
`.decode('utf-8')` on a non-bytes `load_file` result (line 185), and
`UnicodeDecodeError` — either raised by that `.decode('utf-8')` on non-UTF-8
content bytes (line 185) or propagating out of the composite decoder's entry
name decode (line 332). -/
inductive OpenError : Type where
  | notFound (p : List String) : OpenError
  | encrypted : OpenError
  | unsupported : OpenError
  | attributeError (uuid : String) : OpenError
  | unicodeError (uuid : String) : OpenError
deriving DecidableEq

/-- The in-memory tables a successful `DataStore.open` returns
(src lines 146-187): `item_plists` and `items`, in insertion order. -/
structure OpenedStore : Type where
  item_plists : List (String × ItemPlist)
  items : List (String × String)
deriving DecidableEq

/-- src lines 203-204: `item_path`: `Path(self.path, 'pages', uuid[0], uuid)`. -/
def item_path (path : List String) (uuid : String) : List String :=
  path ++ [pagesName, pyFirst uuid, uuid]

/-- src lines 206-207: `item_plist_path`:
`Path(self.path, 'pages', uuid[0], '{}.plist'.format(uuid))`. -/
def item_plist_path (path : List String) (uuid : String) : List String :=
  path ++ [pagesName, pyFirst uuid, uuid ++ plistSuffix]

/-- src lines 290-304: `get_plists` walks the shard subdirectories of `pages`
in listing order and returns their `*.plist` entries in order. -/
def get_plists (shards : List Shard) : List (String × Option ItemPlist) :=
  shards.foldl (fun acc sh => acc ++ sh.plistEntries) []

/-- src lines 146-159: build `ds.item_plists`, skipping every entry whose
plist fails to parse (`except xml.parsers.expat.ExpatError: ... pass`). -/
def collectItemPlists (entries : List (String × Option ItemPlist)) :
    List (String × ItemPlist) :=
  entries.foldl (fun m e =>
    match e.2 with
    | some pl => pyDictSet m e.1 pl
    | none => m) []

/-- src lines 161-185: the `ds.items` loop of `open`: skip the two alias type
tags; for anything else require the content file (else `FileNotFoundError`),
run it through `load_file` and call `.decode('utf-8')` on the result — an
`AttributeError` when `load_file` produced Python `None` or a dict, and a
`UnicodeDecodeError` either propagating out of `load_file` (a bad entry name
inside the composite decode) or raised by this `.decode` on non-UTF-8 content
bytes; both aborts are uncaught and end `open`. -/
def loadItems (root : List String) (fileBytes : List (List String × List Nat)) :
    List (String × ItemPlist) → Except OpenError (List (String × String))
  | [] => Except.ok []
  | (item_uuid, pl) :: rest =>
    if pl.uti = pageAliasUTI then loadItems root fileBytes rest
    else if pl.uti = fileAliasUTI then loadItems root fileBytes rest
    else
      match pyDictGet fileBytes (item_path root item_uuid) with
      | none => Except.error (OpenError.notFound (item_path root item_uuid))
      | some bs =>
        match load_file bs with
        | Except.error _ => Except.error (OpenError.unicodeError item_uuid)
        | Except.ok (PyContent.bytes b) =>
          match utf8Decode b with
          | some text => (loadItems root fileBytes rest).map (fun tl => (item_uuid, text) :: tl)
          | none => Except.error (OpenError.unicodeError item_uuid)
        | Except.ok PyContent.pynone => Except.error (OpenError.attributeError item_uuid)
        | Except.ok (PyContent.dict _) => Except.error (OpenError.attributeError item_uuid)

/-- src lines 106-187: `DataStore.open` (named `openStore` because `open` is a
Lean keyword). Checks, in source order: `storeinfo.plist` exists, then
`properties.plist` exists, then the parsed `isEncrypted` flag, then
`VoodooPadBundleVersion != 5`, then `pages` is a directory — note the source
passes `properties_path`, not the pages path, to that last
`FileNotFoundError` (line 144). Then the two item loops. -/
def DataStore.openStore (fs : StoreFS) : Except OpenError OpenedStore :=
  match fs.storeinfoFile with
  | none => Except.error (OpenError.notFound (fs.root ++ [storeinfoName]))
  | some storeinfo =>
    if fs.propertiesFileExists = false then
      Except.error (OpenError.notFound (fs.root ++ [propertiesName]))
    else if storeinfo.isEncrypted then Except.error OpenError.encrypted
    else if storeinfo.bundleVersion ≠ 5 then Except.error OpenError.unsupported
    else
      match fs.pagesDir with
      | none => Except.error (OpenError.notFound (fs.root ++ [propertiesName]))
      | some shards =>
        let item_plists := collectItemPlists (get_plists shards)
        (loadItems fs.root fs.fileBytes item_plists).map
          (fun items => { item_plists := item_plists, items := items })

/-- src lines 209-225: `validate`: every loaded record's embedded `uuid` must
equal its table key; mismatches make the result `False` (and are printed). -/
def DataStore.validate (item_plists : List (String × ItemPlist)) : Bool :=
  item_plists.all (fun p => decide (p.1 = p.2.uuid))

/-- src lines 42-45: `sha1_hash(s)` updates a SHA-1 context with
`s.encode('utf-8')` and returns the hex digest; the digest itself
(`hashlib`, an external library) is the uninterpreted parameter `hexd`. -/
def sha1_hash (hexd : List Nat → String) (s : String) : String :=
  hexd (utf8Encode s)

/-- The in-memory state of a `DataStore` that `add_item` reads and updates:
`self.path`, `self.items`, `self.item_plists`. -/
structure DSState : Type where
  path : List String
  items : List (String × String)
  item_plists : List (String × ItemPlist)
deriving DecidableEq

/-- A file written by `add_item`: `save_plist` writes a metadata record,
`save_file` writes raw bytes (src lines 246-247). -/
inductive FileWrite : Type where
  | plistData (pl : ItemPlist) : FileWrite
  | rawData (bs : List Nat) : FileWrite
deriving DecidableEq

/-- What `add_item` produces: the updated in-memory state, the disk writes in
order (path, data), and the returned identifier. -/
structure AddItemResult : Type where
  ds : DSState
  writes : List (List String × FileWrite)
  ret : String
deriving DecidableEq

/-- src lines 227-253: `add_item(name, text, format)`. The fresh
`str(uuid.uuid4())` is the parameter `item_uuid` (an external random source);
`hexd` is the SHA-1 hex digest function. Builds the record, writes the plist
and the content to the two shard-addressed paths (built inline at src lines
242-243), mirrors both tables in memory, returns the identifier. -/
def DataStore.add_item (hexd : List Nat → String) (ds : DSState)
    (item_uuid name text format : String) : AddItemResult :=
  let item_key := name.toLower
  let data_hash := sha1_hash hexd text
  let pl : ItemPlist :=
    { uuid := item_uuid, key := item_key, displayName := name,
      uti := format, dataHash := data_hash }
  let ipath := ds.path ++ [pagesName, pyFirst item_uuid, item_uuid]
  let ppath := ds.path ++ [pagesName, pyFirst item_uuid, item_uuid ++ plistSuffix]
  { ds := { path := ds.path, items := pyDictSet ds.items item_uuid text,
            item_plists := pyDictSet ds.item_plists item_uuid pl },
    writes := [(ppath, FileWrite.plistData pl), (ipath, FileWrite.rawData (utf8Encode text))],
    ret := item_uuid }

/-- The 16 shard directory names `f'{i:x}'` for `i in range(16)`
(src lines 69-70). -/
def hexShardNames : List String :=
  ["0", "1", "2", "3", "4", "5", "6", "7", "8", "9", "a", "b", "c", "d", "e", "f"]

/-- Effect of `save_plist` (src lines 261-267) on the `pages` tree: the plist
entry lands in the shard directory named `dirName`; `os.makedirs(...,
exist_ok=True)` creates that directory if it is not one of the existing
shards. -/
def placePlist (shards : List Shard) (dirName : String)
    (entries : List (String × Option ItemPlist)) : List Shard :=
  if shards.any (fun sh => decide (sh.name = dirName)) then
    shards.map (fun sh =>
      if sh.name = dirName then
        { name := sh.name, plistEntries := sh.plistEntries ++ entries }
      else sh)
  else shards ++ [{ name := dirName, plistEntries := entries }]

/-- The seed item's display name `'Index'` (src lines 92-93). -/
def indexTitle : String := "Index"

/-- The seed item's content `'Write about Index here.'` (src line 93). -/
def indexSeedText : String := "Write about Index here."

/-- The seed item's type tag `'net.daringfireball.markdown'` (src line 93). -/
def markdownUTI : String := "net.daringfireball.markdown"

/-- src lines 60-104: `DataStore.create(path)`: make `pages` and the 16 hex
shard directories, write `storeinfo` with `VoodooPadBundleVersion: 6`
(src line 75), seed one `'Index'` item through `add_item`, dump
`storeinfo.plist` and `properties.plist`. Returns the resulting on-disk state
together with the in-memory store. `index_uuid` is the seed item's fresh
`uuid.uuid4()`; `hexd` the SHA-1 digest. `properties` content is not modeled
(no claim consults it), only the file's existence. -/
def DataStore.create (hexd : List Nat → String) (root : List String)
    (index_uuid : String) : StoreFS × DSState :=
  let ds0 : DSState := { path := root, items := [], item_plists := [] }
  let storeinfo : StoreInfo := { isEncrypted := false, bundleVersion := 6 }
  let added := DataStore.add_item hexd ds0 index_uuid indexTitle indexSeedText markdownUTI
  let shard0 : List Shard := hexShardNames.map (fun h => { name := h, plistEntries := [] })
  let seedEntries := added.ds.item_plists.map (fun p => (p.1, some p.2))
  let shards := placePlist shard0 (pyFirst index_uuid) seedEntries
  let contentWrites := added.writes.foldr (fun w acc =>
    match w.2 with
    | FileWrite.rawData bs => (w.1, bs) :: acc
    | FileWrite.plistData _ => acc) []
  ({ root := root, storeinfoFile := some storeinfo, propertiesFileExists := true,
     pagesDir := some shards, fileBytes := contentWrites }, added.ds)

/-- Synthetic encoder for one length-prefixed directory entry name: the
4-byte byte-count of the UTF-8 encoding, then the UTF-8 bytes. -/
def encodeName (nm : String) : List Nat :=
  le4 (utf8Encode nm).length ++ utf8Encode nm

/-- Synthetic encoder for the directory name block. -/
def encodeNames (names : List String) : List Nat :=
  (names.map encodeName).flatten

/-- Synthetic encoder for the directory size block. -/
def encodeSizes (szs : List Nat) : List Nat :=
  (szs.map le4).flatten

/-- Synthetic encoder for a whole `tag == 3` directory record, entries given
as (UTF-8 name, encoded sub-record bytes), followed by trailing bytes. -/
def encodeDir (entries : List (String × List Nat)) (rest : List Nat) : List Nat :=
  le4 3 ++ le4 entries.length ++ encodeNames (entries.map (fun e => e.1)) ++
    encodeSizes (entries.map (fun e => e.2.length)) ++
    (entries.map (fun e => e.2)).flatten ++ rest

lemma le4_length (n : Nat) : (le4 n).length = 4 := rfl

lemma read_int_le4 {n : Nat} (h : n < 4294967296) : read_int (le4 n) = n := by
  simp only [read_int, le4, List.foldr_cons, List.foldr_nil]
  omega

lemma le4_take (n : Nat) (l : List Nat) : (le4 n ++ l).take 4 = le4 n :=
  List.take_left' rfl

lemma le4_drop (n : Nat) (l : List Nat) : (le4 n ++ l).drop 4 = l :=
  List.drop_left' rfl

lemma readNames_snd_length : ∀ (n : Nat) (s : List Nat) (r : List String × List Nat),
    readNames n s = some r → r.2.length ≤ s.length := by
  intro n
  induction n with
  | zero =>
    intro s r h
    simp only [readNames, Option.some.injEq] at h
    rw [← h]
  | succ k ih =>
    intro s r h
    simp only [readNames] at h
    cases hdec : utf8Decode ((s.drop 4).take (read_int (s.take 4))) with
    | none => rw [hdec] at h; simp at h
    | some nm =>
      rw [hdec] at h
      cases hrec : readNames k ((s.drop 4).drop (read_int (s.take 4))) with
      | none => rw [hrec] at h; simp at h
      | some r2 =>
        rw [hrec] at h
        simp only [Option.some.injEq] at h
        have h2 := ih _ _ hrec
        rw [← h]
        simp only [List.length_drop] at h2 ⊢
        omega

lemma readSizes_snd_length : ∀ (n : Nat) (s : List Nat),
    (readSizes n s).2.length ≤ s.length := by
  intro n
  induction n with
  | zero => intro s; simp [readSizes]
  | succ k ih =>
    intro s
    simp only [readSizes]
    have h := ih (s.drop 4)
    simp only [List.length_drop] at h ⊢
    omega

lemma readChunks_mem_length : ∀ (szs : List Nat) (s c : List Nat),
    c ∈ readChunks szs s → c.length ≤ s.length := by
  intro szs
  induction szs with
  | nil => intro s c h; simp [readChunks] at h
  | cons sz tl ih =>
    intro s c h
    simp only [readChunks, List.mem_cons] at h
    rcases h with h | h
    · subst h; simp [List.length_take]
    · have := ih (s.drop sz) c h
      simp only [List.length_drop] at this
      omega

lemma rtfFillDir_congr {f g : List Nat → Except RtfDecodeError (Option RtfItem)} :
    ∀ (entries : List (String × List Nat)) (m : List (String × Option RtfItem)),
      (∀ e ∈ entries, f e.2 = g e.2) →
      rtfFillDir f entries m = rtfFillDir g entries m := by
  intro entries
  induction entries with
  | nil => intro m _; rfl
  | cons e rest ih =>
    intro m h
    simp only [rtfFillDir]
    rw [h e (List.mem_cons_self _ _)]
    cases g e.2 with
    | error err => rfl
    | ok v => exact ih _ (fun x hx => h x (List.mem_cons_of_mem _ hx))

lemma rtfDirBranch_congr {f g : List Nat → Except RtfDecodeError (Option RtfItem)}
    (s1 : List Nat)
    (h : ∀ c : List Nat, c.length ≤ s1.length - 4 → f c = g c) :
    rtfDirBranch f s1 = rtfDirBranch g s1 := by
  unfold rtfDirBranch
  dsimp only
  cases hnm : readNames (read_int (s1.take 4)) (s1.drop 4) with
  | none => rfl
  | some nr =>
    dsimp only
    have hnlen := readNames_snd_length _ _ _ hnm
    have hfill : rtfFillDir f
        (nr.1.zip (readChunks (readSizes (read_int (s1.take 4)) nr.2).1
          (readSizes (read_int (s1.take 4)) nr.2).2))
        (nr.1.foldl (fun m nm => pyDictSet m nm none) []) =
        rtfFillDir g
        (nr.1.zip (readChunks (readSizes (read_int (s1.take 4)) nr.2).1
          (readSizes (read_int (s1.take 4)) nr.2).2))
        (nr.1.foldl (fun m nm => pyDictSet m nm none) []) := by
      apply rtfFillDir_congr
      intro e he
      have hc : e.2 ∈ readChunks (readSizes (read_int (s1.take 4)) nr.2).1
          (readSizes (read_int (s1.take 4)) nr.2).2 := (List.of_mem_zip he).2
      have h1 := readChunks_mem_length _ _ _ hc
      have h2 := readSizes_snd_length (read_int (s1.take 4)) nr.2
      apply h
      simp only [List.length_drop] at hnlen
      omega
    rw [hfill]

lemma rtfGo_fuel : ∀ (fuel : Nat) (s : List Nat), s.length < fuel →
    rtfGo fuel s = rtfGo (s.length + 1) s := by
  intro fuel
  induction fuel using Nat.strong_induction_on with
  | _ fuel ih =>
    intro s hs
    match fuel, hs with
    | f + 1, hs =>
      simp only [rtfGo]
      split_ifs with h1 h3
      · rfl
      · have hne : s ≠ [] := by
          intro e
          rw [e] at h3
          simp [read_int] at h3
        have hpos : 1 ≤ s.length := by
          cases s with
          | nil => exact absurd rfl hne
          | cons a l => simp
        apply rtfDirBranch_congr
        intro c hc
        simp only [List.length_drop] at hc
        have hcf : c.length < f := by omega
        have hcs : c.length < s.length := by omega
        rw [ih f (by omega) c hcf, ih s.length (by omega) c hcs]
      · rfl

lemma rtfGo_eq_read_rtf_item {fuel : Nat} {s : List Nat} (h : s.length < fuel) :
    rtfGo fuel s = read_rtf_item s := by
  rw [read_rtf_item, rtfGo_fuel fuel s h]

lemma utf8DecodeChars_cons (b : Nat) (rest : List Nat) :
    utf8DecodeChars (b :: rest) =
      (if b < 128 then (utf8DecodeChars rest).map (fun cs => Char.ofNat b :: cs)
       else if 194 ≤ b ∧ b ≤ 223 then
         match rest with
         | b1 :: rest1 =>
           if 128 ≤ b1 ∧ b1 ≤ 191 then
             (utf8DecodeChars rest1).map (fun cs => Char.ofNat ((b - 192) * 64 + (b1 - 128)) :: cs)
           else none
         | [] => none
       else if 224 ≤ b ∧ b ≤ 239 then
         match rest with
         | b1 :: b2 :: rest2 =>
           if 128 ≤ b1 ∧ b1 ≤ 191 ∧ 128 ≤ b2 ∧ b2 ≤ 191 ∧
               2048 ≤ (b - 224) * 4096 + (b1 - 128) * 64 + (b2 - 128) ∧
               ((b - 224) * 4096 + (b1 - 128) * 64 + (b2 - 128) < 55296 ∨
                 57343 < (b - 224) * 4096 + (b1 - 128) * 64 + (b2 - 128)) then
             (utf8DecodeChars rest2).map
               (fun cs => Char.ofNat ((b - 224) * 4096 + (b1 - 128) * 64 + (b2 - 128)) :: cs)
           else none
         | _ => none
       else if 240 ≤ b ∧ b ≤ 244 then
         match rest with
         | b1 :: b2 :: b3 :: rest3 =>
           if 128 ≤ b1 ∧ b1 ≤ 191 ∧ 128 ≤ b2 ∧ b2 ≤ 191 ∧ 128 ≤ b3 ∧ b3 ≤ 191 ∧
               65536 ≤ (b - 240) * 262144 + (b1 - 128) * 4096 + (b2 - 128) * 64 + (b3 - 128) ∧
               (b - 240) * 262144 + (b1 - 128) * 4096 + (b2 - 128) * 64 + (b3 - 128) ≤ 1114111 then
             (utf8DecodeChars rest3).map
               (fun cs =>
                 Char.ofNat ((b - 240) * 262144 + (b1 - 128) * 4096 + (b2 - 128) * 64 + (b3 - 128)) :: cs)
           else none
         | _ => none
       else none) := by
  cases rest with
  | nil => rfl
  | cons b1 rest1 =>
    cases rest1 with
    | nil => rfl
    | cons b2 rest2 =>
      cases rest2 with
      | nil => rfl
      | cons b3 rest3 => rfl

lemma utf8DecodeChars_encodeChar (c : Char) (rest : List Nat) :
    utf8DecodeChars (utf8EncodeChar c.toNat ++ rest) =
      (utf8DecodeChars rest).map (fun cs => c :: cs) := by
  have hval : c.toNat < 55296 ∨ (57343 < c.toNat ∧ c.toNat < 1114112) := c.valid
  have hofNat : Char.ofNat c.toNat = c := Char.ofNat_toNat c
  by_cases h1 : c.toNat < 128
  · rw [utf8EncodeChar, if_pos h1]
    simp only [List.cons_append, List.nil_append]
    rw [utf8DecodeChars_cons, if_pos h1, hofNat]
  · by_cases h2 : c.toNat < 2048
    · rw [utf8EncodeChar, if_neg h1, if_pos h2]
      simp only [List.cons_append, List.nil_append]
      rw [utf8DecodeChars_cons]
      rw [if_neg (show ¬(192 + c.toNat / 64 < 128) from by omega)]
      rw [if_pos (show 194 ≤ 192 + c.toNat / 64 ∧ 192 + c.toNat / 64 ≤ 223 from by omega)]
      dsimp only
      rw [if_pos (show 128 ≤ 128 + c.toNat % 64 ∧ 128 + c.toNat % 64 ≤ 191 from by omega)]
      have harith : (192 + c.toNat / 64 - 192) * 64 + (128 + c.toNat % 64 - 128) =
          c.toNat := by omega
      rw [harith, hofNat]
    · by_cases h3 : c.toNat < 65536
      · rw [utf8EncodeChar, if_neg h1, if_neg h2, if_pos h3]
        simp only [List.cons_append, List.nil_append]
        rw [utf8DecodeChars_cons]
        rw [if_neg (show ¬(224 + c.toNat / 4096 < 128) from by omega)]
        rw [if_neg (show ¬(194 ≤ 224 + c.toNat / 4096 ∧ 224 + c.toNat / 4096 ≤ 223) from by omega)]
        rw [if_pos (show 224 ≤ 224 + c.toNat / 4096 ∧ 224 + c.toNat / 4096 ≤ 239 from by omega)]
        dsimp only
        rw [if_pos (show 128 ≤ 128 + c.toNat / 64 % 64 ∧ 128 + c.toNat / 64 % 64 ≤ 191 ∧
            128 ≤ 128 + c.toNat % 64 ∧ 128 + c.toNat % 64 ≤ 191 ∧
            2048 ≤ (224 + c.toNat / 4096 - 224) * 4096 + (128 + c.toNat / 64 % 64 - 128) * 64 +
              (128 + c.toNat % 64 - 128) ∧
            ((224 + c.toNat / 4096 - 224) * 4096 + (128 + c.toNat / 64 % 64 - 128) * 64 +
              (128 + c.toNat % 64 - 128) < 55296 ∨
              57343 < (224 + c.toNat / 4096 - 224) * 4096 + (128 + c.toNat / 64 % 64 - 128) * 64 +
              (128 + c.toNat % 64 - 128)) from by
          refine ⟨by omega, by omega, by omega, by omega, by omega, ?_⟩
          rcases hval with hv | hv
          · left; omega
          · right; omega)]
        have harith : (224 + c.toNat / 4096 - 224) * 4096 + (128 + c.toNat / 64 % 64 - 128) * 64 +
            (128 + c.toNat % 64 - 128) = c.toNat := by omega
        rw [harith, hofNat]
      · rw [utf8EncodeChar, if_neg h1, if_neg h2, if_neg h3]
        simp only [List.cons_append, List.nil_append]
        rw [utf8DecodeChars_cons]
        rw [if_neg (show ¬(240 + c.toNat / 262144 < 128) from by omega)]
        rw [if_neg (show ¬(194 ≤ 240 + c.toNat / 262144 ∧ 240 + c.toNat / 262144 ≤ 223) from by omega)]
        rw [if_neg (show ¬(224 ≤ 240 + c.toNat / 262144 ∧ 240 + c.toNat / 262144 ≤ 239) from by omega)]
        rw [if_pos (show 240 ≤ 240 + c.toNat / 262144 ∧ 240 + c.toNat / 262144 ≤ 244 from by omega)]
        dsimp only
        rw [if_pos (show 128 ≤ 128 + c.toNat / 4096 % 64 ∧ 128 + c.toNat / 4096 % 64 ≤ 191 ∧
            128 ≤ 128 + c.toNat / 64 % 64 ∧ 128 + c.toNat / 64 % 64 ≤ 191 ∧
            128 ≤ 128 + c.toNat % 64 ∧ 128 + c.toNat % 64 ≤ 191 ∧
            65536 ≤ (240 + c.toNat / 262144 - 240) * 262144 + (128 + c.toNat / 4096 % 64 - 128) * 4096 +
              (128 + c.toNat / 64 % 64 - 128) * 64 + (128 + c.toNat % 64 - 128) ∧
            (240 + c.toNat / 262144 - 240) * 262144 + (128 + c.toNat / 4096 % 64 - 128) * 4096 +
              (128 + c.toNat / 64 % 64 - 128) * 64 + (128 + c.toNat % 64 - 128) ≤ 1114111 from by
          have hub : c.toNat < 1114112 := by
            rcases hval with hv | hv
            · omega
            · omega
          refine ⟨by omega, by omega, by omega, by omega, by omega, by omega, by omega, by omega⟩)]
        have harith : (240 + c.toNat / 262144 - 240) * 262144 + (128 + c.toNat / 4096 % 64 - 128) * 4096 +
            (128 + c.toNat / 64 % 64 - 128) * 64 + (128 + c.toNat % 64 - 128) = c.toNat := by omega
        rw [harith, hofNat]

lemma utf8DecodeChars_encode_list : ∀ cs : List Char,
    utf8DecodeChars ((cs.map (fun ch => utf8EncodeChar ch.toNat)).flatten) = some cs := by
  intro cs
  induction cs with
  | nil => rfl
  | cons c tl ih =>
    simp only [List.map_cons, List.flatten_cons]
    rw [utf8DecodeChars_encodeChar, ih]
    rfl

lemma utf8Decode_encode (s : String) : utf8Decode (utf8Encode s) = some s := by
  unfold utf8Decode utf8Encode
  rw [utf8DecodeChars_encode_list]
  rfl

lemma readNames_encode : ∀ (names : List String) (rest : List Nat),
    (∀ nm ∈ names, (utf8Encode nm).length < 4294967296) →
    readNames names.length (encodeNames names ++ rest) = some (names, rest) := by
  intro names
  induction names with
  | nil => intro rest _; simp [readNames, encodeNames]
  | cons nm tl ih =>
    intro rest h
    have hnm : (utf8Encode nm).length < 4294967296 := h nm (List.mem_cons_self _ _)
    have hassoc : encodeNames (nm :: tl) ++ rest =
        le4 (utf8Encode nm).length ++ (utf8Encode nm ++ (encodeNames tl ++ rest)) := by
      simp [encodeNames, encodeName, List.append_assoc]
    simp only [List.length_cons, readNames, hassoc, le4_take, le4_drop,
      read_int_le4 hnm, List.take_left, List.drop_left]
    rw [utf8Decode_encode]
    rw [ih rest (fun x hx => h x (List.mem_cons_of_mem _ hx))]

lemma readSizes_encode : ∀ (szs : List Nat) (rest : List Nat),
    (∀ sz ∈ szs, sz < 4294967296) →
    readSizes szs.length (encodeSizes szs ++ rest) = (szs, rest) := by
  intro szs
  induction szs with
  | nil => intro rest _; simp [readSizes, encodeSizes]
  | cons sz tl ih =>
    intro rest h
    have hsz : sz < 4294967296 := h sz (List.mem_cons_self _ _)
    have hassoc : encodeSizes (sz :: tl) ++ rest = le4 sz ++ (encodeSizes tl ++ rest) := by
      simp [encodeSizes, List.append_assoc]
    simp only [List.length_cons, readSizes, hassoc, le4_take, le4_drop, read_int_le4 hsz]
    rw [ih rest (fun x hx => h x (List.mem_cons_of_mem _ hx))]

lemma readChunks_encode : ∀ (chunks : List (List Nat)) (rest : List Nat),
    readChunks (chunks.map (fun c => c.length)) (chunks.flatten ++ rest) = chunks := by
  intro chunks
  induction chunks with
  | nil => intro rest; simp [readChunks]
  | cons c tl ih =>
    intro rest
    have hassoc : (c :: tl).flatten ++ rest = c ++ (tl.flatten ++ rest) := by
      simp [List.append_assoc]
    simp only [List.map_cons, readChunks, hassoc, List.take_left, List.drop_left]
    rw [ih rest]

lemma pyDictGet_map_replace {α β : Type} [DecidableEq α] :
    ∀ (m : List (α × β)) (k : α) (v : β),
      m.any (fun p => decide (p.1 = k)) = true →
      pyDictGet (m.map (fun p => if p.1 = k then (k, v) else p)) k = some v := by
  intro m k v h
  induction m with
  | nil => simp at h
  | cons a tl ih =>
    by_cases hk : a.1 = k
    · simp [pyDictGet, List.find?, hk]
    · have htl : tl.any (fun p => decide (p.1 = k)) = true := by
        simp only [List.any_cons, decide_eq_true_eq, hk, decide_False, Bool.false_or] at h
        exact h
      have := ih htl
      simp only [pyDictGet, List.map_cons, if_neg hk, List.find?] at this ⊢
      simp only [decide_eq_true_eq, hk, decide_False] at this ⊢
      exact this

lemma pyDictGet_append_single {α β : Type} [DecidableEq α] :
    ∀ (m : List (α × β)) (k : α) (v : β),
      m.any (fun p => decide (p.1 = k)) = false →
      pyDictGet (m ++ [(k, v)]) k = some v := by
  intro m k v h
  induction m with
  | nil => simp [pyDictGet, List.find?]
  | cons a tl ih =>
    simp only [List.any_cons, Bool.or_eq_false_iff] at h
    have hk : ¬(a.1 = k) := by
      intro e
      simp [e] at h
    have := ih h.2
    simp only [List.cons_append, pyDictGet, List.find?] at this ⊢
    simp only [hk, decide_False] at this ⊢
    exact this

lemma pyDictGet_set_self {α β : Type} [DecidableEq α] (m : List (α × β)) (k : α) (v : β) :
    pyDictGet (pyDictSet m k v) k = some v := by
  unfold pyDictSet
  split
  case isTrue h => exact pyDictGet_map_replace m k v h
  case isFalse h =>
    exact pyDictGet_append_single m k v (by
      rcases hh : m.any (fun p => decide (p.1 = k)) with _ | _
      · rfl
      · exact absurd hh h)

lemma pyDictSet_absent {α β : Type} [DecidableEq α] (m : List (α × β)) (k : α) (v : β)
    (h : m.any (fun p => decide (p.1 = k)) = false) :
    pyDictSet m k v = m ++ [(k, v)] := by
  unfold pyDictSet
  rw [h]
  simp

lemma foldl_pyDictSet_none {α β : Type} [DecidableEq α] (b : β) :
    ∀ (names : List α) (pre : List (α × β)),
      names.Nodup →
      (∀ nm ∈ names, ∀ q ∈ pre, q.1 ≠ nm) →
      names.foldl (fun m nm => pyDictSet m nm b) pre =
        pre ++ names.map (fun nm => (nm, b)) := by
  intro names
  induction names with
  | nil => intro pre _ _; simp
  | cons nm tl ih =>
    intro pre hnd hdisj
    have hany : pre.any (fun p => decide (p.1 = nm)) = false := by
      rw [List.any_eq_false]
      intro q hq
      simp only [decide_eq_true_eq]
      exact hdisj nm (List.mem_cons_self _ _) q hq
    simp only [List.foldl_cons, pyDictSet_absent pre nm b hany]
    rw [ih (pre ++ [(nm, b)]) (List.Nodup.of_cons hnd)]
    · simp
    · intro x hx q hq
      rcases List.mem_append.mp hq with hq | hq
      · exact hdisj x (List.mem_cons_of_mem _ hx) q hq
      · simp only [List.mem_singleton] at hq
        subst hq
        intro e
        simp only at e
        subst e
        exact (List.nodup_cons.mp hnd).1 hx

lemma pyDictSet_present_mid {α β : Type} [DecidableEq α]
    (pre suf : List (α × β)) (k : α) (b v : β)
    (hpre : ∀ q ∈ pre, q.1 ≠ k) (hsuf : ∀ q ∈ suf, q.1 ≠ k) :
    pyDictSet (pre ++ (k, b) :: suf) k v = pre ++ (k, v) :: suf := by
  unfold pyDictSet
  have hany : (pre ++ (k, b) :: suf).any (fun p => decide (p.1 = k)) = true := by
    rw [List.any_eq_true]
    exact ⟨(k, b), by simp, by simp⟩
  rw [hany]
  simp only [if_true, List.map_append, List.map_cons]
  have hpre2 : pre.map (fun p => if p.1 = k then (k, v) else p) = pre := by
    have h : ∀ q ∈ pre, (if q.1 = k then (k, v) else q) = (fun a => a) q := by
      intro q hq
      simp only [if_neg (hpre q hq)]
    rw [List.map_congr_left h, List.map_id']
  have hsuf2 : suf.map (fun p => if p.1 = k then (k, v) else p) = suf := by
    have h : ∀ q ∈ suf, (if q.1 = k then (k, v) else q) = (fun a => a) q := by
      intro q hq
      simp only [if_neg (hsuf q hq)]
    rw [List.map_congr_left h, List.map_id']
  rw [hpre2, hsuf2]

lemma rtfGo_succ (fuel : Nat) (s : List Nat) :
    rtfGo (fuel + 1) s =
      (if read_int (s.take 4) = 1 then Except.ok (rtfLeafBranch (s.drop 4))
       else if read_int (s.take 4) = 3 then rtfDirBranch (rtfGo fuel) (s.drop 4)
       else Except.ok none) := by
  simp only [rtfGo]

/-- Reference sequencing of the directory's recursive entry decodes: for each
(name, encoded sub-record) pair in stream order, decode the sub-record with
`recurse`, propagating the first raised error — what the second `tag == 3`
loop computes before the results are arranged into the dict. -/
def decodeEntriesWith (recurse : List Nat → Except RtfDecodeError (Option RtfItem)) :
    List (String × List Nat) → Except RtfDecodeError (List (String × Option RtfItem))
  | [] => Except.ok []
  | e :: rest =>
    match recurse e.2 with
    | Except.error err => Except.error err
    | Except.ok v =>
      match decodeEntriesWith recurse rest with
      | Except.error err => Except.error err
      | Except.ok tl => Except.ok ((e.1, v) :: tl)

/-- Entry-wise decoding with `read_rtf_item` itself: the ordered
name-to-decoded-sub-record mapping of a directory record, or the first
`UnicodeDecodeError` raised by a nested decode. -/
def decodeEntries (entries : List (String × List Nat)) :
    Except RtfDecodeError (List (String × Option RtfItem)) :=
  decodeEntriesWith read_rtf_item entries

lemma decodeEntriesWith_congr {f g : List Nat → Except RtfDecodeError (Option RtfItem)} :
    ∀ entries : List (String × List Nat),
      (∀ e ∈ entries, f e.2 = g e.2) →
      decodeEntriesWith f entries = decodeEntriesWith g entries := by
  intro entries
  induction entries with
  | nil => intro _; rfl
  | cons e rest ih =>
    intro h
    simp only [decodeEntriesWith]
    rw [h e (List.mem_cons_self _ _), ih (fun x hx => h x (List.mem_cons_of_mem _ hx))]

lemma rtfFillDir_decodeEntries (recurse : List Nat → Except RtfDecodeError (Option RtfItem)) :
    ∀ (entries : List (String × List Nat)) (pre : List (String × Option RtfItem)),
      (entries.map (fun e => e.1)).Nodup →
      (∀ e ∈ entries, ∀ q ∈ pre, q.1 ≠ e.1) →
      rtfFillDir recurse entries
          (pre ++ entries.map (fun e => (e.1, (none : Option RtfItem)))) =
        (decodeEntriesWith recurse entries).map (fun m => pre ++ m) := by
  intro entries
  induction entries with
  | nil =>
    intro pre _ _
    simp [rtfFillDir, decodeEntriesWith, Except.map]
  | cons e tl ih =>
    intro pre hnd hdisj
    simp only [rtfFillDir, decodeEntriesWith, List.map_cons]
    cases hrec : recurse e.2 with
    | error err => rfl
    | ok v =>
      dsimp only
      have hstep : pyDictSet
          (pre ++ (e.1, (none : Option RtfItem)) :: tl.map (fun x => (x.1, none))) e.1 v =
          pre ++ (e.1, v) :: tl.map (fun x => (x.1, (none : Option RtfItem))) := by
        apply pyDictSet_present_mid
        · intro q hq
          exact hdisj e (List.mem_cons_self _ _) q hq
        · intro q hq
          rcases List.mem_map.mp hq with ⟨x, hx, rfl⟩
          intro hcontra
          exact absurd (List.mem_map.mpr ⟨x, hx, hcontra⟩) (List.nodup_cons.mp hnd).1
      rw [hstep]
      have hassoc : pre ++ (e.1, v) :: tl.map (fun x => (x.1, (none : Option RtfItem))) =
          (pre ++ [(e.1, v)]) ++ tl.map (fun x => (x.1, none)) := by
        simp
      rw [hassoc, ih (pre ++ [(e.1, v)]) (List.Nodup.of_cons hnd) ?hd]
      case hd =>
        intro x hx q hq
        rcases List.mem_append.mp hq with hq | hq
        · exact hdisj x (List.mem_cons_of_mem _ hx) q hq
        · simp only [List.mem_singleton] at hq
          subst hq
          intro hcontra
          exact absurd (List.mem_map.mpr ⟨x, hx, hcontra.symm⟩) (List.nodup_cons.mp hnd).1
      cases hde : decodeEntriesWith recurse tl with
      | error err => rfl
      | ok m => simp [Except.map]

lemma rtfDirBranch_encode (recurse : List Nat → Except RtfDecodeError (Option RtfItem))
    (entries : List (String × List Nat)) (rest : List Nat)
    (hn : entries.length < 4294967296)
    (hlen : ∀ e ∈ entries, (utf8Encode e.1).length < 4294967296)
    (hlen2 : ∀ e ∈ entries, e.2.length < 4294967296)
    (hnodup : (entries.map (fun e => e.1)).Nodup) :
    rtfDirBranch recurse
      (le4 entries.length ++ (encodeNames (entries.map (fun e => e.1)) ++
        (encodeSizes (entries.map (fun e => e.2.length)) ++
          ((entries.map (fun e => e.2)).flatten ++ rest)))) =
      Except.map (fun m => some (RtfItem.dir m)) (decodeEntriesWith recurse entries) := by
  unfold rtfDirBranch
  dsimp only
  rw [le4_take, read_int_le4 hn, le4_drop]
  have hnames := readNames_encode (entries.map (fun e => e.1))
    (encodeSizes (entries.map (fun e => e.2.length)) ++
      ((entries.map (fun e => e.2)).flatten ++ rest))
    (by intro nm hnm
        rcases List.mem_map.mp hnm with ⟨e, he, hee⟩
        subst hee
        exact hlen e he)
  rw [List.length_map] at hnames
  rw [hnames]
  dsimp only
  have hsizes := readSizes_encode (entries.map (fun e => e.2.length))
    ((entries.map (fun e => e.2)).flatten ++ rest)
    (by intro sz hsz
        rcases List.mem_map.mp hsz with ⟨e, he, hee⟩
        subst hee
        exact hlen2 e he)
  rw [List.length_map] at hsizes
  rw [hsizes]
  dsimp only
  have hszmap : entries.map (fun e => e.2.length) =
      (entries.map (fun e => e.2)).map (fun c => c.length) := by
    rw [List.map_map]
    rfl
  rw [hszmap, readChunks_encode]
  rw [foldl_pyDictSet_none none (entries.map (fun e => e.1)) [] hnodup (by simp)]
  rw [List.map_map]
  have hcomp : ((fun nm => (nm, (none : Option RtfItem))) ∘ (fun e : String × List Nat => e.1)) =
      (fun e : String × List Nat => (e.1, (none : Option RtfItem))) := rfl
  rw [hcomp]
  have hzip : (entries.map (fun e => e.1)).zip (entries.map (fun e => e.2)) = entries := by
    rw [List.zip_map']
    exact List.map_id'' (fun e => rfl) entries
  rw [hzip]
  rw [rtfFillDir_decodeEntries recurse entries [] hnodup (by simp)]
  cases decodeEntriesWith recurse entries with
  | error err => rfl
  | ok m => rfl

lemma read_rtf_item_encodeDir (entries : List (String × List Nat)) (rest : List Nat)
    (hn : entries.length < 4294967296)
    (hlen : ∀ e ∈ entries, (utf8Encode e.1).length < 4294967296)
    (hlen2 : ∀ e ∈ entries, e.2.length < 4294967296)
    (hnodup : (entries.map (fun e => e.1)).Nodup) :
    read_rtf_item (encodeDir entries rest) =
      Except.map (fun m => some (RtfItem.dir m)) (decodeEntries entries) := by
  have hX : encodeDir entries rest =
      le4 3 ++ (le4 entries.length ++ (encodeNames (entries.map (fun e => e.1)) ++
        (encodeSizes (entries.map (fun e => e.2.length)) ++
          ((entries.map (fun e => e.2)).flatten ++ rest)))) := by
    simp [encodeDir, List.append_assoc]
  rw [read_rtf_item, rtfGo_succ, hX]
  rw [le4_take, read_int_le4 (by norm_num), le4_drop]
  rw [if_neg (by norm_num), if_pos rfl]
  rw [rtfDirBranch_encode _ entries rest hn hlen hlen2 hnodup]
  unfold decodeEntries
  congr 1
  apply decodeEntriesWith_congr
  intro e he
  apply rtfGo_eq_read_rtf_item
  have hmem : e.2.length ∈ (entries.map (fun x => x.2)).map List.length :=
    List.mem_map.mpr ⟨e.2, List.mem_map.mpr ⟨e, he, rfl⟩, rfl⟩
  have hsum : e.2.length ≤ ((entries.map (fun x => x.2)).map List.length).sum :=
    List.le_sum_of_mem hmem
  simp only [List.length_append, le4_length, List.length_flatten]
  omega

lemma read_rtf_item_leaf (size : Nat) (payload rest : List Nat)
    (h1 : size < 4294967296) (h2 : size ≠ 2147483648) (h3 : payload.length = size) :
    read_rtf_item (le4 1 ++ (le4 size ++ (payload ++ rest))) =
      Except.ok (some (RtfItem.leaf payload)) := by
  rw [read_rtf_item, rtfGo_succ]
  rw [le4_take, read_int_le4 (by norm_num), if_pos rfl, le4_drop]
  unfold rtfLeafBranch
  dsimp only
  rw [le4_take, read_int_le4 h1, if_neg h2, le4_drop, List.take_left' h3]

lemma read_rtf_item_leaf_padded (psize rsize : Nat) (padding payload rest : List Nat)
    (hp : psize < 4294967296) (hr : rsize < 4294967296)
    (hpl : padding.length = psize) (hrl : payload.length = rsize) :
    read_rtf_item (le4 1 ++ (le4 2147483648 ++ (le4 psize ++ (le4 rsize ++
        (padding ++ (payload ++ rest)))))) =
      Except.ok (some (RtfItem.leaf payload)) := by
  rw [read_rtf_item, rtfGo_succ]
  rw [le4_take, read_int_le4 (by norm_num), if_pos rfl, le4_drop]
  unfold rtfLeafBranch
  dsimp only
  rw [le4_take, read_int_le4 (by norm_num), if_pos rfl, le4_drop]
  rw [le4_take, read_int_le4 hp, le4_drop, le4_take, read_int_le4 hr, le4_drop]
  rw [List.drop_left' hpl, List.take_left' hrl]

lemma read_rtf_item_leaf_short (size : Nat) (rest : List Nat)
    (h1 : size < 4294967296) (h2 : size ≠ 2147483648) (h3 : rest.length ≤ size) :
    read_rtf_item (le4 1 ++ (le4 size ++ rest)) = Except.ok (some (RtfItem.leaf rest)) := by
  rw [read_rtf_item, rtfGo_succ]
  rw [le4_take, read_int_le4 (by norm_num), if_pos rfl, le4_drop]
  unfold rtfLeafBranch
  dsimp only
  rw [le4_take, read_int_le4 h1, if_neg h2, le4_drop, List.take_of_length_le h3]

/-- The same store with every metadata-record file whose markup fails to
parse removed from the shard listings (the items `open` skips at
src lines 157-159). -/
def eraseMalformed (fs : StoreFS) : StoreFS :=
  { fs with pagesDir := fs.pagesDir.map (fun shards =>
      shards.map (fun sh =>
        { name := sh.name,
          plistEntries := sh.plistEntries.filter (fun e => e.2.isSome) })) }

lemma foldl_append_plists (shards : List Shard) :
    ∀ init : List (String × Option ItemPlist),
      shards.foldl (fun acc sh => acc ++ sh.plistEntries) init =
        init ++ (shards.map (fun sh => sh.plistEntries)).flatten := by
  induction shards with
  | nil => intro init; simp
  | cons sh tl ih =>
    intro init
    rw [List.foldl_cons, ih, List.map_cons, List.flatten_cons, List.append_assoc]

lemma flatten_map_filter {α : Type} (p : α → Bool) :
    ∀ l : List (List α), (l.map (fun x => x.filter p)).flatten = l.flatten.filter p := by
  intro l
  induction l with
  | nil => simp
  | cons x tl ih => simp only [List.map_cons, List.flatten_cons, List.filter_append, ih]

lemma collect_foldl_filter :
    ∀ (entries : List (String × Option ItemPlist)) (acc : List (String × ItemPlist)),
      entries.foldl (fun m e =>
          match e.2 with
          | some pl => pyDictSet m e.1 pl
          | none => m) acc =
        (entries.filter (fun e => e.2.isSome)).foldl (fun m e =>
          match e.2 with
          | some pl => pyDictSet m e.1 pl
          | none => m) acc := by
  intro entries
  induction entries with
  | nil => intro acc; rfl
  | cons e tl ih =>
    intro acc
    rcases e with ⟨st, pe⟩
    cases pe with
    | some pl => simp [List.filter_cons, ih]
    | none => simp [List.filter_cons, ih]

lemma collectItemPlists_erase (shards : List Shard) :
    collectItemPlists (get_plists (shards.map (fun sh =>
        { name := sh.name,
          plistEntries := sh.plistEntries.filter (fun e => e.2.isSome) }))) =
      collectItemPlists (get_plists shards) := by
  unfold collectItemPlists get_plists
  rw [foldl_append_plists, foldl_append_plists, List.nil_append, List.nil_append]
  rw [List.map_map]
  have : (shards.map ((fun sh : Shard => sh.plistEntries) ∘ (fun sh : Shard =>
      ({ name := sh.name,
         plistEntries := sh.plistEntries.filter (fun e => e.2.isSome) } : Shard)))) =
      (shards.map (fun sh => sh.plistEntries.filter (fun e => e.2.isSome))) := rfl
  rw [this]
  have h2 : (shards.map (fun sh => sh.plistEntries.filter (fun e => e.2.isSome))) =
      ((shards.map (fun sh => sh.plistEntries)).map (fun x =>
        x.filter (fun e => e.2.isSome))) := by
    rw [List.map_map]
    rfl
  rw [h2, flatten_map_filter]
  rw [← collect_foldl_filter]

/-- C1: the claim says every store produced by `create` opens successfully and
validates. In the code, `create` writes `VoodooPadBundleVersion: 6` into
`storeinfo` (src line 75) while `open` rejects any version other than 5 with
`Exception('Unsupported')` (src lines 136-137), so `open` on a freshly created
store always fails: the claim is right about the intent and the code has a
version-constant slip. This theorem evaluates the code on the created store. -/
theorem C1_created_store_rejected_by_open (hexd : List Nat → String)
    (root : List String) (index_uuid : String) :
    (DataStore.create hexd root index_uuid).1.storeinfoFile =
      some { isEncrypted := false, bundleVersion := 6 } ∧
    DataStore.openStore (DataStore.create hexd root index_uuid).1 =
      Except.error OpenError.unsupported :=
  ⟨rfl, rfl⟩

/-- C1 witness: the bug at a concrete creation. -/
theorem C1_created_store_rejected_by_open_witness :
    (DataStore.create (fun _ => "") [] "0ab").1.storeinfoFile =
      some { isEncrypted := false, bundleVersion := 6 } ∧
    DataStore.openStore (DataStore.create (fun _ => "") [] "0ab").1 =
      Except.error OpenError.unsupported :=
  C1_created_store_rejected_by_open (fun _ => "") [] "0ab"

/-- C2 counterexample: the claim says a read past the end of the stream is a
hard `Truncated` failure. On the stream `tag=1, size=10` followed by no
payload at all, the decoder returns a successful empty leaf — the read is
silently short, and no failure of any kind occurs. -/
theorem C2_truncated_decode_counterexample :
    read_rtf_item [1, 0, 0, 0, 10, 0, 0, 0] = Except.ok (some (RtfItem.leaf [])) := rfl

/-- C2 (amended): reads past the available bytes are silently short, never a
failure: a leaf whose size field exceeds the remaining bytes decodes
successfully to exactly the remaining bytes; `read_int` of an absent field
reads as 0 (an empty byte string decodes to the integer 0), so a stream that
ends right after the tag still decodes to an empty leaf. -/
theorem C2_short_reads_are_silent :
    (∀ (size : Nat) (rest : List Nat),
        size < 4294967296 → size ≠ 2147483648 → rest.length < size →
        read_rtf_item (le4 1 ++ (le4 size ++ rest)) = Except.ok (some (RtfItem.leaf rest))) ∧
    read_int [] = 0 ∧
    read_rtf_item (le4 1) = Except.ok (some (RtfItem.leaf [])) := by
  refine ⟨?_, rfl, rfl⟩
  intro size rest h1 h2 h3
  exact read_rtf_item_leaf_short size rest h1 h2 (Nat.le_of_lt h3)

/-- C2 witness: the amended statement at a concrete truncated stream. -/
theorem C2_short_reads_are_silent_witness :
    read_rtf_item (le4 1 ++ (le4 10 ++ [2, 3])) = Except.ok (some (RtfItem.leaf [2, 3])) :=
  C2_short_reads_are_silent.1 10 [2, 3] (by decide) (by decide) (by decide)

/-- Identifier of the single item in the C3 example store. -/
def c3Uuid : String := "aaa1"

/-- Metadata record of the single item in the C3 example store. -/
def c3ItemPlist : ItemPlist :=
  { uuid := c3Uuid, key := "bad page", displayName := "Bad Page",
    uti := markdownUTI, dataHash := "d" }

/-- Content bytes that begin with the composite-document magic but carry an
unrecognized record tag (7), so the decode fails and extraction returns
Python `None`. -/
def c3BadContent : List Nat := strBytes rtfdMagic ++ [0, 0, 0, 0, 7, 0, 0, 0]

/-- A store passing every structural check of `open`, whose only item's
content is `c3BadContent`. -/
def c3Store : StoreFS :=
  { root := ["store"],
    storeinfoFile := some { isEncrypted := false, bundleVersion := 5 },
    propertiesFileExists := true,
    pagesDir := some [{ name := "a", plistEntries := [(c3Uuid, some c3ItemPlist)] }],
    fileBytes := [(["store", "pages", "a", c3Uuid], c3BadContent)] }

/-- C3: the claim says a failed composite decode degrades to an omitted/empty
item and `open` still succeeds. In the code, `extract_rtf_content_from_rtfd`
returns Python `None` for such an item (printing a diagnostic, src lines
340, 355-360), but `open` then calls `.decode('utf-8')` on that `None`
(src line 185), raising `AttributeError` and aborting the whole load: the
decoder's report-and-continue design makes the claim the evident intent, and
the unguarded `.decode` call in `open` the slip. This theorem evaluates the
code on such a store: every structural check passes, the single item's bytes
start with the magic, its decode fails, and `open` raises instead of
returning. -/
theorem C3_decode_failure_aborts_open :
    4 < c3BadContent.length ∧
    c3BadContent.take 4 = strBytes rtfdMagic ∧
    read_rtf_item (c3BadContent.drop 8) = Except.ok none ∧
    DataStore.openStore c3Store = Except.error (OpenError.attributeError c3Uuid) :=
  ⟨by decide, by decide, rfl, rfl⟩

/-- C4: `add_item(name, text, format)` returns an identifier whose metadata
record — the one written to disk at the shard-addressed plist path and the
one mirrored into `self.item_plists` — has `uuid` equal to the returned
identifier, `key` equal to the lowercased name, and `dataHash` equal to the
SHA-1 hex digest of the UTF-8 encoded text (src lines 227-253; the digest
function itself is the abstract parameter `hexd`, and `sha1_hash` composes it
with UTF-8 encoding exactly as src lines 42-45 do). -/
theorem C4_add_item_record_consistent (hexd : List Nat → String) (ds : DSState)
    (item_uuid name text format : String) :
    (DataStore.add_item hexd ds item_uuid name text format).ret = item_uuid ∧
    pyDictGet (DataStore.add_item hexd ds item_uuid name text format).ds.item_plists
        (DataStore.add_item hexd ds item_uuid name text format).ret =
      some { uuid := item_uuid, key := name.toLower, displayName := name,
             uti := format, dataHash := sha1_hash hexd text } ∧
    (item_plist_path ds.path (DataStore.add_item hexd ds item_uuid name text format).ret,
      FileWrite.plistData { uuid := item_uuid, key := name.toLower, displayName := name,
                            uti := format, dataHash := sha1_hash hexd text }) ∈
      (DataStore.add_item hexd ds item_uuid name text format).writes :=
  ⟨rfl, pyDictGet_set_self ds.item_plists item_uuid _, List.mem_cons_self _ _⟩

/-- C4 witness: the record consistency at one concrete call. -/
theorem C4_add_item_record_consistent_witness :
    (DataStore.add_item (fun _ => "") { path := [], items := [], item_plists := [] }
        ("u1") ("N") ("t") ("f")).ret = "u1" ∧
    pyDictGet (DataStore.add_item (fun _ => "") { path := [], items := [], item_plists := [] }
        ("u1") ("N") ("t") ("f")).ds.item_plists
        (DataStore.add_item (fun _ => "") { path := [], items := [], item_plists := [] }
          ("u1") ("N") ("t") ("f")).ret =
      some { uuid := "u1", key := ("N").toLower, displayName := "N",
             uti := "f", dataHash := sha1_hash (fun _ => "") ("t") } ∧
    (item_plist_path [] (DataStore.add_item (fun _ => "") { path := [], items := [], item_plists := [] }
        ("u1") ("N") ("t") ("f")).ret,
      FileWrite.plistData { uuid := "u1", key := ("N").toLower, displayName := "N",
                            uti := "f", dataHash := sha1_hash (fun _ => "") ("t") }) ∈
      (DataStore.add_item (fun _ => "") { path := [], items := [], item_plists := [] }
        ("u1") ("N") ("t") ("f")).writes :=
  C4_add_item_record_consistent (fun _ => "")
    { path := [], items := [], item_plists := [] } ("u1") ("N") ("t") ("f")

/-- C5: the paths used for an identifier are always sharded by its first
character: `item_path` and `item_plist_path` (src lines 203-207, the
resolvers `open` uses through `loadItems`) produce
`path/pages/{id[0]}/{id}` and `path/pages/{id[0]}/{id}.plist`, and the paths
`add_item` builds inline (src lines 242-243) are exactly those two, in the
order plist-write then content-write; `pyFirst` is the first character of the
identifier. -/
theorem C5_shard_is_first_character (hexd : List Nat → String) (ds : DSState)
    (item_uuid name text format : String) (c : Char) (cs : List Char) :
    (DataStore.add_item hexd ds item_uuid name text format).writes.map (fun w => w.1) =
      [item_plist_path ds.path item_uuid, item_path ds.path item_uuid] ∧
    item_path ds.path item_uuid = ds.path ++ [pagesName, pyFirst item_uuid, item_uuid] ∧
    item_plist_path ds.path item_uuid =
      ds.path ++ [pagesName, pyFirst item_uuid, item_uuid ++ plistSuffix] ∧
    pyFirst (String.mk (c :: cs)) = String.singleton c :=
  ⟨rfl, rfl, rfl, rfl⟩

/-- C5 witness: the addressing rule at one concrete call. -/
theorem C5_shard_is_first_character_witness :
    (DataStore.add_item (fun _ => "") { path := [], items := [], item_plists := [] }
        ("ab") ("N") ("t") ("f")).writes.map (fun w => w.1) =
      [item_plist_path [] ("ab"), item_path [] ("ab")] ∧
    item_path [] ("ab") = [] ++ [pagesName, pyFirst ("ab"), "ab"] ∧
    item_plist_path [] ("ab") = [] ++ [pagesName, pyFirst ("ab"), "ab" ++ plistSuffix] ∧
    pyFirst (String.mk ('a' :: ['b'])) = String.singleton 'a' :=
  C5_shard_is_first_character (fun _ => "")
    { path := [], items := [], item_plists := [] } ("ab") ("N") ("t") ("f") 'a' ['b']

/-- Identifier of the well-formed item in the C8 example store. -/
def c8Uuid : String := "b0b0"

/-- File-name stem of the malformed metadata record in the C8 example store. -/
def c8BadStem : String := "bbad"

/-- Text content of the well-formed item in the C8 example store. -/
def c8Text : String := "hello"

/-- Metadata record of the well-formed item in the C8 example store. -/
def c8ItemPlist : ItemPlist :=
  { uuid := c8Uuid, key := "good page", displayName := "Good Page",
    uti := markdownUTI, dataHash := "d" }

/-- A store passing every structural check, holding one parseable item and one
metadata record whose markup fails to parse (`parse = none`). -/
def c8Store : StoreFS :=
  { root := ["store"],
    storeinfoFile := some { isEncrypted := false, bundleVersion := 5 },
    propertiesFileExists := true,
    pagesDir :=
      some [{ name := "b",
              plistEntries := [(c8Uuid, some c8ItemPlist), (c8BadStem, none)] }],
    fileBytes := [(["store", "pages", "b", c8Uuid], strBytes c8Text)] }

/-- C8: a metadata record whose structured-value markup fails to parse is
skipped and enumeration continues (src lines 149-159): `open` behaves exactly
as if the malformed record were not on disk at all — so `open` still succeeds
whenever it would succeed without it, with every other parseable item loaded
and only the malformed record omitted. The second conjunct evaluates a
concrete store with one good and one malformed record. -/
theorem C8_malformed_record_skipped :
    (∀ fs : StoreFS, DataStore.openStore fs = DataStore.openStore (eraseMalformed fs)) ∧
    DataStore.openStore c8Store =
      Except.ok { item_plists := [(c8Uuid, c8ItemPlist)], items := [(c8Uuid, c8Text)] } := by
  constructor
  · intro fs
    rcases fs with ⟨root, si, pf, pd, fb⟩
    cases si with
    | none => rfl
    | some s =>
      cases pd with
      | none => rfl
      | some shards =>
        simp only [DataStore.openStore, eraseMalformed, Option.map]
        rw [collectItemPlists_erase]
  · rfl

/-- C8 witness: the first conjunct at the concrete example store. -/
theorem C8_malformed_record_skipped_witness :
    DataStore.openStore c8Store = DataStore.openStore (eraseMalformed c8Store) :=
  C8_malformed_record_skipped.1 c8Store

/-- C6: leaf records (`tag == 1`, src lines 316-325): with an ordinary size
field the decoder returns exactly the next `size` bytes verbatim; with the
`0x80000000` sentinel it reads a padding size `P` and a real size `R`, skips
exactly the `P` padding bytes and returns exactly the next `R` bytes, padding
excluded. -/
theorem C6_leaf_record_semantics :
    (∀ (size : Nat) (payload rest : List Nat),
        size < 4294967296 → size ≠ 2147483648 → payload.length = size →
        read_rtf_item (le4 1 ++ (le4 size ++ (payload ++ rest))) =
          Except.ok (some (RtfItem.leaf payload))) ∧
    (∀ (psize rsize : Nat) (padding payload rest : List Nat),
        psize < 4294967296 → rsize < 4294967296 →
        padding.length = psize → payload.length = rsize →
        read_rtf_item (le4 1 ++ (le4 2147483648 ++ (le4 psize ++ (le4 rsize ++
            (padding ++ (payload ++ rest)))))) = Except.ok (some (RtfItem.leaf payload))) :=
  ⟨read_rtf_item_leaf, read_rtf_item_leaf_padded⟩

/-- C6 witness: an ordinary 3-byte leaf, and a padded leaf with padding size 2
and real size 1 — the padding bytes are excluded from the result. -/
theorem C6_leaf_record_semantics_witness :
    read_rtf_item (le4 1 ++ (le4 3 ++ ([97, 98, 99] ++ []))) =
      Except.ok (some (RtfItem.leaf [97, 98, 99])) ∧
    read_rtf_item (le4 1 ++ (le4 2147483648 ++ (le4 2 ++ (le4 1 ++
        ([9, 9] ++ ([55] ++ [])))))) = Except.ok (some (RtfItem.leaf [55])) :=
  ⟨C6_leaf_record_semantics.1 3 [97, 98, 99] [] (by decide) (by decide) rfl,
   C6_leaf_record_semantics.2 2 1 [9, 9] [55] [] (by decide) (by decide) rfl rfl⟩

/-- C10: when `storeinfo.plist` and `properties.plist` both exist, the store
is unencrypted and at the supported version, but `pages` is not a directory,
`open` raises `FileNotFoundError` — and the path it carries is
`properties_path`, not the pages path (src lines 141-144 reuse
`properties_path` in that raise). -/
theorem C10_missing_pages_error_carries_properties_path (fs : StoreFS) (si : StoreInfo)
    (h1 : fs.storeinfoFile = some si) (h2 : fs.propertiesFileExists = true)
    (h3 : si.isEncrypted = false) (h4 : si.bundleVersion = 5)
    (h5 : fs.pagesDir = none) :
    DataStore.openStore fs =
      Except.error (OpenError.notFound (fs.root ++ [propertiesName])) ∧
    fs.root ++ [propertiesName] ≠ fs.root ++ [pagesName] := by
  constructor
  · simp [DataStore.openStore, h1, h2, h3, h4, h5]
  · intro h
    have h' : [propertiesName] = [pagesName] := by
      have := List.append_cancel_left h
      exact this
    simp [propertiesName, pagesName] at h'

/-- C10 witness: the behavior at a concrete store with no pages directory. -/
theorem C10_missing_pages_error_carries_properties_path_witness :
    DataStore.openStore
        { root := ["w"],
          storeinfoFile := some { isEncrypted := false, bundleVersion := 5 },
          propertiesFileExists := true, pagesDir := none, fileBytes := [] } =
      Except.error (OpenError.notFound (["w"] ++ [propertiesName])) ∧
    ["w"] ++ [propertiesName] ≠ ["w"] ++ [pagesName] :=
  C10_missing_pages_error_carries_properties_path
    { root := ["w"],
      storeinfoFile := some { isEncrypted := false, bundleVersion := 5 },
      propertiesFileExists := true, pagesDir := none, fileBytes := [] }
    { isEncrypted := false, bundleVersion := 5 } rfl rfl rfl rfl rfl

/-- C9: content routing in `load_file` (src lines 269-278) and in the item
loop of `open` (src lines 183-185): bytes longer than 4 that begin with the
4-byte magic `b'rtfd'` are routed through the composite-record extraction;
anything else — including the boundary case of content that is exactly the 4
magic bytes and nothing more, since the source requires `len > 4` strictly —
is returned verbatim and decoded directly as UTF-8 by `open`. The last two
conjuncts show the routing as `open` performs it on a non-alias item: the
direct-UTF-8 path, and the decoder path with the extracted rich-text leaf. -/
theorem C9_magic_routing :
    (∀ bs : List Nat, 4 < bs.length ∧ bs.take 4 = strBytes rtfdMagic →
        load_file bs = Except.map contentOfExtract (extract_rtf_content_from_rtfd bs)) ∧
    (∀ bs : List Nat, ¬(4 < bs.length ∧ bs.take 4 = strBytes rtfdMagic) →
        load_file bs = Except.ok (PyContent.bytes bs)) ∧
    load_file (strBytes rtfdMagic) = Except.ok (PyContent.bytes (strBytes rtfdMagic)) ∧
    (∀ (root : List String) (fileBytes : List (List String × List Nat))
        (item_uuid : String) (pl : ItemPlist) (rest : List (String × ItemPlist))
        (bs : List Nat) (text : String),
        pl.uti ≠ pageAliasUTI → pl.uti ≠ fileAliasUTI →
        pyDictGet fileBytes (item_path root item_uuid) = some bs →
        ¬(4 < bs.length ∧ bs.take 4 = strBytes rtfdMagic) →
        utf8Decode bs = some text →
        loadItems root fileBytes ((item_uuid, pl) :: rest) =
          (loadItems root fileBytes rest).map (fun tl => (item_uuid, text) :: tl)) ∧
    (∀ (root : List String) (fileBytes : List (List String × List Nat))
        (item_uuid : String) (pl : ItemPlist) (rest : List (String × ItemPlist))
        (bs b : List Nat) (text : String),
        pl.uti ≠ pageAliasUTI → pl.uti ≠ fileAliasUTI →
        pyDictGet fileBytes (item_path root item_uuid) = some bs →
        (4 < bs.length ∧ bs.take 4 = strBytes rtfdMagic) →
        extract_rtf_content_from_rtfd bs = Except.ok (some (RtfItem.leaf b)) →
        utf8Decode b = some text →
        loadItems root fileBytes ((item_uuid, pl) :: rest) =
          (loadItems root fileBytes rest).map (fun tl => (item_uuid, text) :: tl)) := by
  refine ⟨?_, ?_, rfl, ?_, ?_⟩
  · intro bs h
    unfold load_file
    rw [if_pos h]
  · intro bs h
    unfold load_file
    rw [if_neg h]
  · intro root fileBytes item_uuid pl rest bs text hA hB hlook hmag hdec
    simp only [loadItems, if_neg hA, if_neg hB, hlook]
    unfold load_file
    rw [if_neg hmag]
    simp only [hdec]
  · intro root fileBytes item_uuid pl rest bs b text hA hB hlook hmag hext hdec
    simp only [loadItems, if_neg hA, if_neg hB, hlook]
    unfold load_file
    rw [if_pos hmag, hext]
    simp only [Except.map, contentOfExtract, hdec]

/-- C9 witness: a magic-prefixed input is routed through extraction; a short
plain input is returned verbatim. -/
theorem C9_magic_routing_witness :
    load_file (strBytes rtfdMagic ++ [0, 0, 0, 0]) =
      Except.map contentOfExtract
        (extract_rtf_content_from_rtfd (strBytes rtfdMagic ++ [0, 0, 0, 0])) ∧
    load_file [104, 105] = Except.ok (PyContent.bytes [104, 105]) :=
  ⟨C9_magic_routing.1 (strBytes rtfdMagic ++ [0, 0, 0, 0]) (by decide),
   C9_magic_routing.2.1 [104, 105] (by decide)⟩

lemma pyDictGet_singleton {α β : Type} [DecidableEq α] (k : α) (v : β) :
    pyDictGet [(k, v)] k = some v := by
  simp [pyDictGet, List.find?]

/-- C7: directory records (`tag == 3`, src lines 326-339): the decoder reads
the count, then all the length-prefixed names in order — each one decoded as
UTF-8, an invalid name raising `UnicodeDecodeError` (src line 332) — then all
the sizes in the same order, then each entry's raw encoded bytes in order,
recursively decodes each entry's bytes by the same grammar (errors
propagating), and returns the ordered name-to-record mapping in stream order.
Second conjunct: top-level extraction of a directory container with one entry
named `TXT.rtf` wrapping a leaf returns that leaf's bytes. Third conjunct: a
one-entry directory whose name byte `0xC8` is not valid UTF-8 raises. -/
theorem C7_directory_record_semantics :
    (∀ (entries : List (String × List Nat)) (rest : List Nat),
        entries.length < 4294967296 →
        (∀ e ∈ entries, (utf8Encode e.1).length < 4294967296) →
        (∀ e ∈ entries, e.2.length < 4294967296) →
        (entries.map (fun e => e.1)).Nodup →
        read_rtf_item (encodeDir entries rest) =
          Except.map (fun m => some (RtfItem.dir m)) (decodeEntries entries)) ∧
    (∀ (payload rest : List Nat), payload.length < 2147483648 →
        extract_rtf_content_from_rtfd (strBytes rtfdMagic ++ ([0, 0, 0, 0] ++
            encodeDir [(txtRtfName, le4 1 ++ (le4 payload.length ++ payload))] rest)) =
          Except.ok (some (RtfItem.leaf payload))) ∧
    read_rtf_item [3, 0, 0, 0, 1, 0, 0, 0, 1, 0, 0, 0, 200] =
      Except.error RtfDecodeError.unicodeDecodeError := by
  refine ⟨read_rtf_item_encodeDir, ?_, rfl⟩
  intro payload rest hlen
  have hchunk : read_rtf_item (le4 1 ++ (le4 payload.length ++ payload)) =
      Except.ok (some (RtfItem.leaf payload)) := by
    have h := read_rtf_item_leaf payload.length payload [] (by omega) (by omega) rfl
    rw [List.append_nil] at h
    exact h
  have hdentries : decodeEntries [(txtRtfName, le4 1 ++ (le4 payload.length ++ payload))] =
      Except.ok [(txtRtfName, some (RtfItem.leaf payload))] := by
    simp only [decodeEntries, decodeEntriesWith, hchunk]
  unfold extract_rtf_content_from_rtfd
  have htake : (strBytes rtfdMagic ++ ([0, 0, 0, 0] ++ encodeDir
      [(txtRtfName, le4 1 ++ (le4 payload.length ++ payload))] rest)).take 4 =
      strBytes rtfdMagic := List.take_left' (by decide)
  rw [if_neg (fun hh => hh htake)]
  rw [List.drop_left' (show (strBytes rtfdMagic).length = 4 by decide)]
  rw [List.drop_left' (show ([0, 0, 0, 0] : List Nat).length = 4 by decide)]
  rw [read_rtf_item_encodeDir
    [(txtRtfName, le4 1 ++ (le4 payload.length ++ payload))] rest
    (by show (1 : Nat) < 4294967296
        decide)
    (by intro e he
        simp only [List.mem_singleton] at he
        subst he
        show (utf8Encode txtRtfName).length < 4294967296
        decide)
    (by intro e he
        simp only [List.mem_singleton] at he
        subst he
        simp only [List.length_append, le4_length]
        omega)
    (by simp)]
  rw [hdentries]
  simp only [Except.map]
  rw [pyDictGet_singleton]

/-- C7 witness: the directory semantics at a one-entry container, and the
`TXT.rtf` extraction with leaf payload `[120]`. -/
theorem C7_directory_record_semantics_witness :
    read_rtf_item (encodeDir [("A", [9, 9])] []) =
      Except.map (fun m => some (RtfItem.dir m)) (decodeEntries [("A", [9, 9])]) ∧
    extract_rtf_content_from_rtfd (strBytes rtfdMagic ++ ([0, 0, 0, 0] ++
        encodeDir [(txtRtfName,
          le4 1 ++ (le4 ([120] : List Nat).length ++ [120]))] [])) =
      Except.ok (some (RtfItem.leaf [120])) :=
  ⟨C7_directory_record_semantics.1 [("A", [9, 9])] []
      (by decide) (by decide) (by decide) (by decide),
   C7_directory_record_semantics.2.1 [120] [] (by decide)⟩
